import Mathlib

/-!
Verification development for the single-file text-analysis tool (main.py).

The program analyzes one text file: it detects the language (ZH/EN),
tokenizes, computes word-frequency statistics, derives a sentiment profile,
and hands the resulting record to chart/report consumers.

Modelling conventions (shallow embedding):
* Python strings are lists of Unicode code points (List Nat).  Python allows
  lone surrogates in str, so bare code points are more faithful than Char.
* Python floats are modelled as exact rationals.
* The external NLP libraries (jieba, SnowNLP, TextBlob, NLTK VADER) are
  injected as parameters (the Models structure).  Fallible model calls return
  Except Unit; jieba segmentation is treated as a total function.
* File IO (open/read/getsize) is injected as the Env structure.
-/

namespace GarbageCan

/-- A Python string, as its sequence of Unicode code points. -/
abbrev PyStr := List Nat

/-- Code points of a Lean string literal, used to write concrete examples. -/
def str2cp (s : String) : PyStr := s.toList.map Char.toNat

/-- The two language tags the program uses (the strings "zh" / "en"). -/
inductive Language
  | zh
  | en
deriving DecidableEq

/-- The character class of the regex [一-龥] at main.py:35, i.e. the
CJK Unified Ideographs range as written in the source. -/
def isCJK (c : Nat) : Bool := 0x4e00 ≤ c && c ≤ 0x9fa5

/-- main.py:33-35, detect_language: re.search succeeds iff some character of
the text lies in the class, in which case the result is "zh", else "en". -/
def detect_language (text : PyStr) : Language :=
  if text.any isCJK then .zh else .en

/-- ASCII letter, the character class [a-zA-Z] of the token regex. -/
def isAsciiLetter (c : Nat) : Bool := (65 ≤ c && c ≤ 90) || (97 ≤ c && c ≤ 122)

/-- ASCII digit. -/
def isAsciiDigit (c : Nat) : Bool := 48 ≤ c && c ≤ 57

/-- The regex word class \w, restricted to ASCII: [a-zA-Z0-9_].  (The Python
pattern is Unicode-aware, where \w additionally contains non-ASCII word
characters; those only make word boundaries fail in more places.  This model
fixes the ASCII fragment throughout, on both sides of every statement.) -/
def isWordChar (c : Nat) : Bool := isAsciiLetter c || isAsciiDigit c || c == 95

/-- Lift a character predicate to an optional neighbouring character; a
missing neighbour (start or end of the string) satisfies no predicate. -/
def optHolds (p : Nat → Bool) : Option Nat → Bool
  | none => false
  | some c => p c

/-- str.lower, modelled on the mappings that interact with the ASCII token
alphabet: the letters A-Z map to a-z, and U+212A KELVIN SIGN maps to the
ASCII letter k.  All other code points are kept unchanged; the remaining
Unicode lowercase mappings neither produce characters in [a-zA-Z] nor move a
character out of the modelled ASCII \w class.  (Known deviation: U+0130 maps
under Python to the two code points [105, 775]; this code-point-to-code-point
model keeps it unchanged.) -/
def pyLower (c : Nat) : Nat :=
  if 65 ≤ c ∧ c ≤ 90 then c + 32
  else if c = 0x212a then 107
  else c

/-- main.py:43, re.findall(r'\b[a-zA-Z]+\b', s) as a left-to-right scan.
The regex can match at a position only when the previous character (prevWord,
false at the start of the string) is not a word character and the current
character is a letter; the greedy [a-zA-Z]+ then consumes the whole letter
run, and the final \b accepts iff the character following the run is not a
word character (backtracking to a shorter run never helps, because the run
would then be followed by a letter, which is a word character).  Positions
strictly inside a letter run can never start a match, so the scan may simply
advance one character at a time, carrying the word-character status of the
previous character. -/
def re_findall_word (prevWord : Bool) : PyStr → List PyStr
  | [] => []
  | c :: cs =>
    if isAsciiLetter c && !prevWord
        && !optHolds isWordChar ((cs.dropWhile isAsciiLetter).head?) then
      (c :: cs.takeWhile isAsciiLetter) :: re_findall_word (isWordChar c) cs
    else
      re_findall_word (isWordChar c) cs

/-- main.py:38-43, tokenize_text: jieba.cut for ZH, the lower-cased
word-boundary letter runs for EN. -/
def tokenize_text (cut : PyStr → List PyStr) (text : PyStr) :
    Language → List PyStr
  | .zh => cut text
  | .en => re_findall_word false (text.map pyLower)

/-- The polarity labels used by the program (the strings "positive",
"negative", "neutral"). -/
inductive Polarity
  | positive
  | negative
  | neutral
deriving DecidableEq

/-- The intensity breakdown dictionary. -/
structure Intensity where
  positive : ℚ
  negative : ℚ
  neutral : ℚ
deriving DecidableEq

/-- The analysis dictionary built by analyze_sentiment. -/
structure SentimentProfile where
  score : ℚ
  polarity : Polarity
  intensity : Intensity
  keywords : List (PyStr × PyStr)
deriving DecidableEq

/-- main.py:48-53, the profile as initialized before any model runs. -/
def default_analysis : SentimentProfile :=
  { score := 0.5
    polarity := .neutral
    intensity := { positive := 0, negative := 0, neutral := 0 }
    keywords := [] }

/-- The dictionary returned by the VADER polarity_scores call. -/
structure VaderScores where
  compound : ℚ
  pos : ℚ
  neg : ℚ
  neu : ℚ

/-- The external NLP backends, injected as deterministic functions of the
text.  Fallible calls return Except Unit (the program discards the exception
payload).  A failing constructor (SnowNLP, SentimentIntensityAnalyzer) is
identified with a failure of the first call made through it. -/
structure Models where
  jieba_cut : PyStr → List PyStr
  snownlp_sentiments : PyStr → Except Unit ℚ
  snownlp_tags : PyStr → Except Unit (List (PyStr × PyStr))
  blob_sentiment_polarity : PyStr → Except Unit ℚ
  vader_polarity_scores : PyStr → Except Unit VaderScores
  blob_tags : PyStr → Except Unit (List (PyStr × PyStr))

/-- main.py:61, the four adjective-class POS tags kept on the ZH path. -/
def zh_adj_tags : List PyStr := [str2cp "a", str2cp "ad", str2cp "ag", str2cp "an"]

/-- main.py:77, tag.startswith('JJ'). -/
def tag_starts_JJ (tag : PyStr) : Bool :=
  match tag with
  | 74 :: 74 :: _ => true
  | _ => false

/-- main.py:79-83, the polarity classification applied to the current
analysis dictionary: score > 0.6 sets positive, score < 0.4 sets negative,
otherwise the polarity field (still at its initial value) is untouched. -/
def classify_polarity (a : SentimentProfile) : SentimentProfile :=
  if a.score > 0.6 then { a with polarity := .positive }
  else if a.score < 0.4 then { a with polarity := .negative }
  else a

/-- main.py:46-88, analyze_sentiment.  The dictionary starts at the default
profile and is mutated inside a try block; an exception in a model call
aborts the remaining mutations and the except clause only prints, so the
dictionary as mutated so far is returned.  Call order is the source order:
ZH: SnowNLP sentiments, then SnowNLP tags, then classification.
EN: VADER polarity_scores (line 66), then the TextBlob sentiment polarity
(evaluated lazily inside line 69), then the score and intensity assignments,
then TextBlob tags (line 76), then classification. -/
def analyze_sentiment (M : Models) (text : PyStr) :
    Language → SentimentProfile
  | .zh =>
    match M.snownlp_sentiments text with
    | .error _ => default_analysis
    | .ok sc =>
      let a1 := { default_analysis with score := sc }
      match M.snownlp_tags text with
      | .error _ => a1
      | .ok tags =>
        classify_polarity
          { a1 with keywords := tags.filter (fun wt => decide (wt.2 ∈ zh_adj_tags)) }
  | .en =>
    match M.vader_polarity_scores text with
    | .error _ => default_analysis
    | .ok vader =>
      match M.blob_sentiment_polarity text with
      | .error _ => default_analysis
      | .ok p =>
        let a1 := { default_analysis with
                    score := (p + vader.compound) / 2
                    intensity := { positive := vader.pos
                                   negative := vader.neg
                                   neutral := vader.neu } }
        match M.blob_tags text with
        | .error _ => a1
        | .ok tags =>
          classify_polarity
            { a1 with keywords := tags.filter (fun wt => tag_starts_JJ wt.2) }

/-- The line-boundary code points recognised by str.splitlines. -/
def isLineBoundary (c : Nat) : Bool :=
  c == 10 || c == 13 || c == 11 || c == 12 || c == 28 || c == 29 || c == 30 ||
    c == 0x85 || c == 0x2028 || c == 0x2029

/-- str.splitlines, scanning with the current line accumulated in reverse;
CR LF counts as a single boundary, and a final unterminated nonempty line is
kept (an empty one is not). -/
def splitlinesAux (cur : PyStr) : PyStr → List PyStr
  | [] => if cur.isEmpty then [] else [cur.reverse]
  | 13 :: 10 :: rest => cur.reverse :: splitlinesAux [] rest
  | c :: rest =>
    if isLineBoundary c then cur.reverse :: splitlinesAux [] rest
    else splitlinesAux (c :: cur) rest

/-- content.splitlines() at main.py:102. -/
def splitlines (text : PyStr) : List PyStr := splitlinesAux [] text

/-- Deduplication keeping first occurrences, i.e. the key order of a dict
built by counting; seen accumulates the keys already emitted. -/
def dedupFirst (seen : List PyStr) : List PyStr → List PyStr
  | [] => []
  | w :: ws =>
    if w ∈ seen then dedupFirst seen ws else w :: dedupFirst (w :: seen) ws

/-- collections.Counter(words) at main.py:111: the mapping from each distinct
token to its number of occurrences, keys in first-occurrence order. -/
def counter (ws : List PyStr) : List (PyStr × Nat) :=
  (dedupFirst [] ws).map fun w => (w, ws.count w)

/-- The file-system collaborator: open+read (UTF-8 decode included) and
os.path.getsize, each fallible, as functions of the path. -/
structure Env where
  read : PyStr → Except Unit PyStr
  getsize : PyStr → Except Unit Nat

/-- os.path.basename on POSIX: the suffix after the last '/' (47). -/
def basename (p : PyStr) : PyStr := (p.reverse.takeWhile (fun c => c != 47)).reverse

/-- The stats dictionary returned by analyze_file (the AnalysisResult). -/
structure Stats where
  file_name : PyStr
  file_size : Nat
  char_count : Nat
  line_count : Nat
  language : Language
  words : List PyStr
  word_count : Nat
  word_freq : List (PyStr × Nat)
  sentiment : SentimentProfile
deriving DecidableEq

/-- main.py:91-120, analyze_file: read the file and size (any IO failure is
caught and None is returned), then detect the language, tokenize, count, and
analyze sentiment; detection, tokenization, counting are total, and
analyze_sentiment catches its own model failures. -/
def analyze_file (env : Env) (M : Models) (file_path : PyStr) : Option Stats :=
  match env.read file_path with
  | .error _ => none
  | .ok content =>
    match env.getsize file_path with
    | .error _ => none
    | .ok size =>
      let language := detect_language content
      let words := tokenize_text M.jieba_cut content language
      some
        { file_name := basename file_path
          file_size := size
          char_count := content.length
          line_count := (splitlines content).length
          language := language
          words := words
          word_count := words.length
          word_freq := counter words
          sentiment := analyze_sentiment M content language }

/-- The export choice read from the user at main.py:237. -/
inductive ExportFormat
  | csv
  | pdf
  | skip
deriving DecidableEq

/-- What the main block produced: the analysis record, whether
generate_charts saved a chart, whether export_report wrote a report. -/
structure RunOutcome where
  result : Option Stats
  chart_generated : Bool
  report_exported : Bool
deriving DecidableEq

/-- main.py:213-241 with generate_charts and export_report reduced to their
guards: when analyze_file returns None nothing downstream runs;
generate_charts returns early when word_count is 0; export_report runs for
the csv/pdf choices. -/
def run_main (env : Env) (M : Models) (file_path : PyStr)
    (choice : ExportFormat) : RunOutcome :=
  match analyze_file env M file_path with
  | none => { result := none, chart_generated := false, report_exported := false }
  | some st =>
    { result := some st
      chart_generated := st.word_count != 0
      report_exported := choice != .skip }

/-! ## Specification-side definitions (for the refinement claims) -/

/-- The character before position i of s, where p is the character before the
whole string (none at the very start). -/
def prevAt (p : Option Nat) (s : PyStr) : Nat → Option Nat
  | 0 => p
  | j + 1 => s[j]?

/-- The run of ASCII letters beginning at position i of s. -/
def letterRunAt (s : PyStr) (i : Nat) : PyStr :=
  (s.drop i).takeWhile isAsciiLetter

/-- Following the words of spec 4.2: a maximal run of ASCII letters starts at
position i when the character there is a letter and the preceding character
(if any) is not. -/
def maxRunStartAt (p : Option Nat) (s : PyStr) (i : Nat) : Bool :=
  optHolds isAsciiLetter s[i]? && !optHolds isAsciiLetter (prevAt p s i)

/-- Following the words of spec 4.2: the run at position i is delimited by
word boundaries when neither the character before it nor the character after
it is a word character. -/
def runBoundaryOk (p : Option Nat) (s : PyStr) (i : Nat) : Bool :=
  !optHolds isWordChar (prevAt p s i) &&
    !optHolds isWordChar s[i + (letterRunAt s i).length]?

/-- Specification-side tokenizer, generalised by the character before the
string: the maximal runs of ASCII letters delimited by word boundaries,
listed by start position (document order). -/
def spec_word_runs_from (p : Option Nat) (s : PyStr) : List PyStr :=
  (List.range s.length).filterMap fun i =>
    if maxRunStartAt p s i && runBoundaryOk p s i then some (letterRunAt s i)
    else none

/-- Specification-side tokenizer for the EN path (spec 4.2): the maximal runs
of ASCII letters delimited by word boundaries, in document order. -/
def spec_word_runs (s : PyStr) : List PyStr := spec_word_runs_from none s

/-! ## Concrete instances used by witnesses and counterexamples -/

/-- Models in which every fallible call fails except the ZH sentiment score,
which yields 0.9: the keyword tagging then fails after the score was already
stored. -/
def M_zh_late_fail : Models :=
  { jieba_cut := fun _ => []
    snownlp_sentiments := fun _ => .ok 0.9
    snownlp_tags := fun _ => .error ()
    blob_sentiment_polarity := fun _ => .error ()
    vader_polarity_scores := fun _ => .error ()
    blob_tags := fun _ => .error () }

/-- Models in which both EN scorers succeed but the EN POS tagging fails:
score and intensity are stored, keyword extraction and classification are
skipped. -/
def M_en_late_fail : Models :=
  { jieba_cut := fun _ => []
    snownlp_sentiments := fun _ => .error ()
    snownlp_tags := fun _ => .error ()
    blob_sentiment_polarity := fun _ => .ok 0.9
    vader_polarity_scores := fun _ => .ok { compound := 0.8, pos := 0.1, neg := 0.2, neu := 0.7 }
    blob_tags := fun _ => .error () }

/-- Models in which every call succeeds; both EN scorers report the most
negative value in their documented ranges. -/
def M_en_negative : Models :=
  { jieba_cut := fun _ => []
    snownlp_sentiments := fun _ => .ok 0.7
    snownlp_tags := fun _ => .ok []
    blob_sentiment_polarity := fun _ => .ok (-1)
    vader_polarity_scores := fun _ => .ok { compound := -1, pos := 0, neg := 1, neu := 0 }
    blob_tags := fun _ => .ok [] }

/-- Models in which every call succeeds with mid-range values. -/
def M_all_ok : Models :=
  { jieba_cut := fun _ => []
    snownlp_sentiments := fun _ => .ok 0.7
    snownlp_tags := fun _ => .ok []
    blob_sentiment_polarity := fun _ => .ok 0.5
    vader_polarity_scores := fun _ => .ok { compound := 0.5, pos := 0.2, neg := 0.1, neu := 0.7 }
    blob_tags := fun _ => .ok [] }

/-- An environment whose every read fails (a missing file). -/
def env_fail : Env :=
  { read := fun _ => .error (), getsize := fun _ => .ok 0 }

/-- An environment holding the text "ab ab" (5 bytes) at every path. -/
def env_abab : Env :=
  { read := fun _ => .ok (str2cp "ab ab"), getsize := fun _ => .ok 5 }

/-- An environment holding "ab ab" at the empty path only. -/
def env_abab_partial : Env :=
  { read := fun p => if p = [] then .ok (str2cp "ab ab") else .error ()
    getsize := fun p => if p = [] then .ok 5 else .error () }

/-- The record analyze_file produces from env_abab with failing models. -/
def stats_abab : Stats :=
  { file_name := str2cp "t.txt"
    file_size := 5
    char_count := 5
    line_count := 1
    language := .en
    words := [str2cp "ab", str2cp "ab"]
    word_count := 2
    word_freq := [(str2cp "ab", 2)]
    sentiment := default_analysis }

/-! ## Helper lemmas -/

/-- classify_polarity never changes the score field. -/
theorem classify_score (a : SentimentProfile) :
    (classify_polarity a).score = a.score := by
  unfold classify_polarity; split_ifs <;> rfl

/-- classify_polarity never changes the intensity field. -/
theorem classify_intensity (a : SentimentProfile) :
    (classify_polarity a).intensity = a.intensity := by
  unfold classify_polarity; split_ifs <;> rfl

/-- classify_polarity never changes the keywords field. -/
theorem classify_keywords (a : SentimentProfile) :
    (classify_polarity a).keywords = a.keywords := by
  unfold classify_polarity; split_ifs <;> rfl

/-- On a profile whose polarity is still the initial neutral value,
classify_polarity realises the threshold contract. -/
theorem classify_cases (a : SentimentProfile) (hn : a.polarity = .neutral) :
    ((classify_polarity a).score > 0.6 → (classify_polarity a).polarity = .positive) ∧
    ((classify_polarity a).score < 0.4 → (classify_polarity a).polarity = .negative) ∧
    (0.4 ≤ (classify_polarity a).score ∧ (classify_polarity a).score ≤ 0.6 →
      (classify_polarity a).polarity = .neutral) := by
  unfold classify_polarity
  split_ifs with h1 h2
  · refine ⟨fun _ => rfl, fun h => ?_, fun h => ?_⟩
    · exfalso
      have h' : a.score < 0.4 := h
      linarith
    · exfalso
      have h' : a.score ≤ 0.6 := h.2
      linarith
  · refine ⟨fun h => ?_, fun _ => rfl, fun h => ?_⟩
    · exfalso
      have h' : a.score > 0.6 := h
      linarith
    · exfalso
      have h' : 0.4 ≤ a.score := h.1
      linarith
  · exact ⟨fun h => absurd h h1, fun h => absurd h h2, fun _ => hn⟩

/-! ## Claims C1 to C4 -/

/-- C1 (counterexample): on the ZH path, when the sentiment score succeeds
with 0.9 but the subsequent keyword tagging fails, the returned analysis has
score 0.9 > 0.6 yet its polarity is not POSITIVE, so polarity is not the
claimed function of score over all analyses. -/
theorem late_model_failure_breaks_threshold_contract :
    (analyze_sentiment M_zh_late_fail [] .zh).score > 0.6 ∧
    (analyze_sentiment M_zh_late_fail [] .zh).polarity ≠ .positive := by
  have h : analyze_sentiment M_zh_late_fail [] .zh =
      { default_analysis with score := 0.9 } := rfl
  rw [h]
  constructor
  · show (0.9 : ℚ) > 0.6
    norm_num
  · show Polarity.neutral ≠ .positive
    decide

/-- C1 (amended): in every sentiment analysis in which all model invocations
succeed (both ZH and EN paths), score > 0.6 gives POSITIVE, score < 0.4
gives NEGATIVE, and 0.4 ≤ score ≤ 0.6 gives NEUTRAL. -/
theorem polarity_thresholds_hold_on_success (M : Models) (text : PyStr)
    (lang : Language)
    (hzh : lang = .zh → (∃ q, M.snownlp_sentiments text = .ok q) ∧
      ∃ ts, M.snownlp_tags text = .ok ts)
    (hen : lang = .en → (∃ v, M.vader_polarity_scores text = .ok v) ∧
      (∃ q, M.blob_sentiment_polarity text = .ok q) ∧
      ∃ ts, M.blob_tags text = .ok ts) :
    ((analyze_sentiment M text lang).score > 0.6 →
      (analyze_sentiment M text lang).polarity = .positive) ∧
    ((analyze_sentiment M text lang).score < 0.4 →
      (analyze_sentiment M text lang).polarity = .negative) ∧
    (0.4 ≤ (analyze_sentiment M text lang).score ∧
        (analyze_sentiment M text lang).score ≤ 0.6 →
      (analyze_sentiment M text lang).polarity = .neutral) := by
  cases lang with
  | zh =>
    obtain ⟨⟨q, hq⟩, ⟨ts, ht⟩⟩ := hzh rfl
    simp only [analyze_sentiment, hq, ht]
    exact classify_cases _ rfl
  | en =>
    obtain ⟨⟨v, hv⟩, ⟨q, hq⟩, ⟨ts, ht⟩⟩ := hen rfl
    simp only [analyze_sentiment, hv, hq, ht]
    exact classify_cases _ rfl

/-- C1 (witness): with all models succeeding and a ZH score of 0.7, the
classification yields POSITIVE. -/
theorem polarity_thresholds_hold_on_success_inst :
    (analyze_sentiment M_all_ok [] .zh).polarity = .positive :=
  (polarity_thresholds_hold_on_success M_all_ok [] .zh
      (fun _ => ⟨⟨0.7, rfl⟩, ⟨[], rfl⟩⟩) (fun h => nomatch h)).1
    (by
      rw [show analyze_sentiment M_all_ok [] .zh =
        classify_polarity { default_analysis with score := 0.7 } from rfl,
        classify_score]
      norm_num)

/-- C2 (counterexample): on the EN path, when both scorers succeed but the
POS tagging fails, the caught failure does not return the default profile. -/
theorem late_model_failure_returns_partial_profile :
    analyze_sentiment M_en_late_fail [] .en ≠ default_analysis := by
  have h : analyze_sentiment M_en_late_fail [] .en =
      { default_analysis with
        score := (0.9 + 0.8) / 2
        intensity := { positive := 0.1, negative := 0.2, neutral := 0.7 } } := rfl
  rw [h]
  intro hEq
  have hs : ((0.9 : ℚ) + 0.8) / 2 = 0.5 := congrArg SentimentProfile.score hEq
  norm_num at hs

/-- C2 (amended): every model failure is caught and never fatal (a readable
file still yields a result).  A failure before the first profile field is
computed (ZH: the SnowNLP score; EN: the VADER call or the TextBlob polarity)
returns the default profile unchanged; a failure in keyword tagging returns
the profile with the already-computed score (and, on EN, intensity), with
polarity NEUTRAL and keywords empty. -/
theorem fallback_profile_structure (M : Models) (text : PyStr) :
    (M.snownlp_sentiments text = .error () →
      analyze_sentiment M text .zh = default_analysis) ∧
    (M.vader_polarity_scores text = .error () →
      analyze_sentiment M text .en = default_analysis) ∧
    (∀ v, M.vader_polarity_scores text = .ok v →
      M.blob_sentiment_polarity text = .error () →
      analyze_sentiment M text .en = default_analysis) ∧
    (∀ q, M.snownlp_sentiments text = .ok q → M.snownlp_tags text = .error () →
      analyze_sentiment M text .zh = { default_analysis with score := q }) ∧
    (∀ v q, M.vader_polarity_scores text = .ok v →
      M.blob_sentiment_polarity text = .ok q → M.blob_tags text = .error () →
      analyze_sentiment M text .en =
        { default_analysis with
          score := (q + v.compound) / 2
          intensity := { positive := v.pos, negative := v.neg, neutral := v.neu } }) ∧
    (∀ env path content size, Env.read env path = .ok content →
      Env.getsize env path = .ok size →
      (analyze_file env M path).isSome = true) := by
  refine ⟨fun h => ?_, fun h => ?_, fun v hv h => ?_, fun q hq h => ?_,
    fun v q hv hq h => ?_, fun env path content size hr hs => ?_⟩
  · simp [analyze_sentiment, h]
  · simp [analyze_sentiment, h]
  · simp [analyze_sentiment, hv, h]
  · simp [analyze_sentiment, hq, h]
  · simp [analyze_sentiment, hv, hq, h]
  · simp [analyze_file, hr, hs]

/-- C2 (witness): the amended behaviour at concrete models — a first-call
failure returns the default profile; a tagging failure returns the partial
profile; a readable file still yields a result. -/
theorem fallback_profile_structure_inst :
    analyze_sentiment M_zh_late_fail [] .en = default_analysis ∧
    analyze_sentiment M_en_late_fail [] .en =
      { default_analysis with
        score := (0.9 + 0.8) / 2
        intensity := { positive := 0.1, negative := 0.2, neutral := 0.7 } } ∧
    (analyze_file env_abab M_zh_late_fail []).isSome = true :=
  ⟨(fallback_profile_structure M_zh_late_fail []).2.1 rfl,
    (fallback_profile_structure M_en_late_fail []).2.2.2.2.1
      { compound := 0.8, pos := 0.1, neg := 0.2, neu := 0.7 } 0.9 rfl rfl rfl,
    (fallback_profile_structure M_zh_late_fail []).2.2.2.2.2
      env_abab [] (str2cp "ab ab") 5 rfl rfl⟩

/-- C3 (counterexample): a successful EN analysis whose scorers report the
bottom of their documented ranges produces a score below 0, outside [0,1]. -/
theorem en_score_can_leave_unit_interval :
    (analyze_sentiment M_en_negative [] .en).score < 0 := by
  rw [show analyze_sentiment M_en_negative [] .en =
      classify_polarity
        { default_analysis with
          score := ((-1) + (-1)) / 2
          intensity := { positive := 0, negative := 1, neutral := 0 } } from rfl,
    classify_score]
  norm_num

/-- C3 (amended): in a successful analysis whose model outputs lie in their
documented ranges, the ZH score lies in [0,1], while the EN blended score is
only guaranteed to lie in [-1,1]. -/
theorem score_bounds_by_language (M : Models) (text : PyStr) :
    (∀ q, M.snownlp_sentiments text = .ok q → 0 ≤ q → q ≤ 1 →
      0 ≤ (analyze_sentiment M text .zh).score ∧
        (analyze_sentiment M text .zh).score ≤ 1) ∧
    (∀ v q, M.vader_polarity_scores text = .ok v →
      M.blob_sentiment_polarity text = .ok q →
      -1 ≤ q → q ≤ 1 → -1 ≤ v.compound → v.compound ≤ 1 →
      -1 ≤ (analyze_sentiment M text .en).score ∧
        (analyze_sentiment M text .en).score ≤ 1) := by
  constructor
  · intro q hq h0 h1
    cases ht : M.snownlp_tags text with
    | error e =>
      simp only [analyze_sentiment, hq, ht]
      exact ⟨h0, h1⟩
    | ok ts =>
      simp only [analyze_sentiment, hq, ht, classify_score]
      exact ⟨h0, h1⟩
  · intro v q hv hq hq0 hq1 hc0 hc1
    cases ht : M.blob_tags text with
    | error e =>
      simp only [analyze_sentiment, hv, hq, ht]
      constructor <;> [linarith; linarith]
    | ok ts =>
      simp only [analyze_sentiment, hv, hq, ht, classify_score]
      constructor <;> [linarith; linarith]

/-- C3 (witness): the amended bounds at concrete in-range models. -/
theorem score_bounds_by_language_inst :
    (0 ≤ (analyze_sentiment M_all_ok [] .zh).score ∧
      (analyze_sentiment M_all_ok [] .zh).score ≤ 1) ∧
    (-1 ≤ (analyze_sentiment M_all_ok [] .en).score ∧
      (analyze_sentiment M_all_ok [] .en).score ≤ 1) :=
  ⟨(score_bounds_by_language M_all_ok []).1 0.7 rfl (by norm_num) (by norm_num),
    (score_bounds_by_language M_all_ok []).2
      { compound := 0.5, pos := 0.2, neg := 0.1, neu := 0.7 } 0.5 rfl rfl
      (by norm_num) (by norm_num) (by norm_num) (by norm_num)⟩

/-- C4: on the EN path, whenever the two scorers return (the POS tagging may
or may not fail afterwards), the result score is exactly
(polarity + compound) / 2 and the intensity is the VADER breakdown
verbatim. -/
theorem en_score_blend_and_intensity (M : Models) (text : PyStr)
    (v : VaderScores) (q : ℚ)
    (hv : M.vader_polarity_scores text = .ok v)
    (hq : M.blob_sentiment_polarity text = .ok q) :
    (analyze_sentiment M text .en).score = (q + v.compound) / 2 ∧
    (analyze_sentiment M text .en).intensity =
      { positive := v.pos, negative := v.neg, neutral := v.neu } := by
  cases ht : M.blob_tags text with
  | error e => simp [analyze_sentiment, hv, hq, ht]
  | ok ts => simp [analyze_sentiment, hv, hq, ht, classify_score, classify_intensity]

/-- C4 (witness): the blend at concrete scorer outputs. -/
theorem en_score_blend_and_intensity_inst :
    (analyze_sentiment M_all_ok [] .en).score = (0.5 + 0.5) / 2 ∧
    (analyze_sentiment M_all_ok [] .en).intensity =
      { positive := 0.2, negative := 0.1, neutral := 0.7 } :=
  en_score_blend_and_intensity M_all_ok []
    { compound := 0.5, pos := 0.2, neg := 0.1, neu := 0.7 } 0.5 rfl rfl

/-! ## Claims C5, C8, C9 -/

/-- C5: detect_language returns ZH iff some character of the text lies in the
CJK range of the source pattern (U+4E00 to U+9FA5), returns EN whenever no
such character occurs, and the empty text classifies as EN; the function is
total, so detection never fails. -/
theorem detect_language_spec :
    (∀ text : PyStr,
      (detect_language text = .zh ↔ ∃ c ∈ text, isCJK c = true) ∧
      ((¬ ∃ c ∈ text, isCJK c = true) → detect_language text = .en)) ∧
    detect_language [] = .en := by
  refine ⟨fun text => ?_, rfl⟩
  by_cases h : text.any isCJK = true
  · have hex : ∃ c ∈ text, isCJK c = true := List.any_eq_true.mp h
    constructor
    · simp [detect_language, h, hex]
    · intro hne
      exact absurd hex hne
  · have hnex : ¬ ∃ c ∈ text, isCJK c = true := fun hex =>
      h (List.any_eq_true.mpr hex)
    constructor
    · simp [detect_language, h, hnex]
    · intro _
      simp [detect_language, h]

/-- C5 (witness): detection at concrete texts, through the theorem. -/
theorem detect_language_spec_inst :
    detect_language (str2cp "我爱 this") = .zh ∧
    detect_language (str2cp "hello") = .en :=
  ⟨(detect_language_spec.1 (str2cp "我爱 this")).1.mpr (by decide),
    (detect_language_spec.1 (str2cp "hello")).2 (by decide)⟩

/-- C8: when the read of the input file fails, analyze_file returns no
result, and the whole run produces no chart and no report — nothing
downstream observes a partial record. -/
theorem io_failure_aborts_run (env : Env) (M : Models) (file_path : PyStr)
    (choice : ExportFormat) (h : env.read file_path = .error ()) :
    analyze_file env M file_path = none ∧
    run_main env M file_path choice =
      { result := none, chart_generated := false, report_exported := false } := by
  have h1 : analyze_file env M file_path = none := by
    simp [analyze_file, h]
  exact ⟨h1, by simp [run_main, h1]⟩

/-- C8 (witness): the aborted run at a concrete failing environment. -/
theorem io_failure_aborts_run_inst :
    analyze_file env_fail M_all_ok [] = none ∧
    run_main env_fail M_all_ok [] .csv =
      { result := none, chart_generated := false, report_exported := false } :=
  io_failure_aborts_run env_fail M_all_ok [] .csv rfl

/-- C9: analyze_file is a function of the file content and size delivered by
the environment (with the models fixed, i.e. deterministic): two runs over
environments that agree on the given path produce identical records. -/
theorem analyze_deterministic_in_content (env1 env2 : Env) (M : Models)
    (file_path : PyStr)
    (hr : env1.read file_path = env2.read file_path)
    (hs : env1.getsize file_path = env2.getsize file_path) :
    analyze_file env1 M file_path = analyze_file env2 M file_path := by
  simp only [analyze_file, hr, hs]

/-- C9 (witness): two different environments holding the same bytes at the
analyzed path give the same record. -/
theorem analyze_deterministic_in_content_inst :
    analyze_file env_abab_partial M_all_ok [] =
      analyze_file env_abab M_all_ok [] :=
  analyze_deterministic_in_content env_abab_partial env_abab M_all_ok [] rfl rfl

/-! ## Claim C7: frequency invariants -/

/-- Membership in the first-occurrence deduplication: exactly the members of
the input that were not already seen. -/
theorem mem_dedupFirst (l : List PyStr) :
    ∀ (seen : List PyStr) (b : PyStr),
      b ∈ dedupFirst seen l ↔ (b ∈ l ∧ b ∉ seen) := by
  induction l with
  | nil => intro seen b; simp [dedupFirst]
  | cons w ws ih =>
    intro seen b
    by_cases hw : w ∈ seen
    · rw [show dedupFirst seen (w :: ws) = dedupFirst seen ws from by
        simp [dedupFirst, hw]]
      rw [ih seen b]
      constructor
      · rintro ⟨hb, hbs⟩
        exact ⟨List.mem_cons_of_mem w hb, hbs⟩
      · rintro ⟨hb, hbs⟩
        rcases List.mem_cons.mp hb with hbw | hb
        · exact absurd (hbw ▸ hw) hbs
        · exact ⟨hb, hbs⟩
    · rw [show dedupFirst seen (w :: ws) = w :: dedupFirst (w :: seen) ws from by
        simp [dedupFirst, hw]]
      rw [List.mem_cons, ih (w :: seen) b]
      constructor
      · rintro (hbw | ⟨hb, hbs⟩)
        · exact ⟨hbw ▸ List.mem_cons_self w ws, hbw ▸ hw⟩
        · exact ⟨List.mem_cons_of_mem w hb, fun hmem => hbs (List.mem_cons_of_mem w hmem)⟩
      · rintro ⟨hb, hbs⟩
        rcases List.mem_cons.mp hb with hbw | hb
        · exact Or.inl hbw
        · by_cases hbw : b = w
          · exact Or.inl hbw
          · exact Or.inr ⟨hb, fun hmem => by
              rcases List.mem_cons.mp hmem with h1 | h1
              · exact hbw h1
              · exact hbs h1⟩

/-- The first-occurrence deduplication has no duplicates. -/
theorem nodup_dedupFirst (l : List PyStr) :
    ∀ seen : List PyStr, (dedupFirst seen l).Nodup := by
  induction l with
  | nil => intro seen; simp [dedupFirst]
  | cons w ws ih =>
    intro seen
    by_cases hw : w ∈ seen
    · simpa [dedupFirst, hw] using ih seen
    · rw [show dedupFirst seen (w :: ws) = w :: dedupFirst (w :: seen) ws from by
        simp [dedupFirst, hw]]
      refine List.nodup_cons.mpr ⟨fun hmem => ?_, ih (w :: seen)⟩
      exact ((mem_dedupFirst ws (w :: seen) w).mp hmem).2 (List.mem_cons_self w seen)

/-- As a set, the deduplication of the token list is the token list. -/
theorem toFinset_dedupFirst (ws : List PyStr) :
    (dedupFirst [] ws).toFinset = ws.toFinset := by
  ext t
  simp [List.mem_toFinset, mem_dedupFirst]

/-- The two BEq instances available on token lists (the structural one and
the one derived from decidable equality) give the same counts. -/
theorem count_decEq (w : PyStr) (l : List PyStr) :
    l.count w = @List.count PyStr (instBEqOfDecidableEq) w l := by
  induction l with
  | nil => rfl
  | cons b bs ih =>
    simp only [List.count_cons, ih]
    congr 1
    by_cases h : w = b
    · subst h; simp
    · simp [h]

/-- The counts recorded by counter sum to the number of tokens. -/
theorem counter_sum (ws : List PyStr) :
    ((counter ws).map Prod.snd).sum = ws.length := by
  unfold counter
  rw [List.map_map]
  rw [show (Prod.snd ∘ fun w => (w, ws.count w)) = fun w => ws.count w from rfl]
  rw [← List.sum_toFinset _ (nodup_dedupFirst ws []), toFinset_dedupFirst]
  rw [show (fun w => ws.count w)
      = fun w => @List.count PyStr (instBEqOfDecidableEq) w ws from
    funext fun w => count_decEq w ws]
  exact List.sum_toFinset_count_eq_length ws

/-- The keys of counter are exactly the distinct values of the token list. -/
theorem counter_keys (ws : List PyStr) (t : PyStr) :
    (∃ n, (t, n) ∈ counter ws) ↔ t ∈ ws := by
  unfold counter
  constructor
  · rintro ⟨n, hmem⟩
    obtain ⟨w, hw, hEq⟩ := List.mem_map.mp hmem
    obtain ⟨rfl, -⟩ := Prod.mk.injEq .. ▸ hEq
    exact ((mem_dedupFirst ws [] w).mp hw).1
  · intro ht
    refine ⟨ws.count t, List.mem_map.mpr ⟨t, ?_, rfl⟩⟩
    exact (mem_dedupFirst ws [] t).mpr ⟨ht, by simp⟩

/-- C7: every record analyze_file produces satisfies the lexical invariants:
word_count is the length of words, the frequency counts sum to word_count,
and the frequency keys are exactly the distinct tokens. -/
theorem result_frequency_invariants (env : Env) (M : Models)
    (file_path : PyStr) (st : Stats)
    (h : analyze_file env M file_path = some st) :
    st.word_count = st.words.length ∧
    (st.word_freq.map Prod.snd).sum = st.word_count ∧
    (∀ t, (∃ n, (t, n) ∈ st.word_freq) ↔ t ∈ st.words) := by
  unfold analyze_file at h
  cases hr : env.read file_path with
  | error e => rw [hr] at h; simp at h
  | ok content =>
    rw [hr] at h
    cases hs : env.getsize file_path with
    | error e => rw [hs] at h; simp at h
    | ok size =>
      rw [hs] at h
      simp only [Option.some.injEq] at h
      subst h
      exact ⟨rfl, counter_sum _, fun t => counter_keys _ t⟩

/-- C7 (witness): the invariants at the concrete record produced from the
text "ab ab". -/
theorem result_frequency_invariants_inst :
    stats_abab.word_count = stats_abab.words.length ∧
    (stats_abab.word_freq.map Prod.snd).sum = stats_abab.word_count :=
  ⟨(result_frequency_invariants env_abab M_zh_late_fail (str2cp "t.txt")
      stats_abab rfl).1,
    (result_frequency_invariants env_abab M_zh_late_fail (str2cp "t.txt")
      stats_abab rfl).2.1⟩

/-! ## Claim C6: the EN tokenizer equals the specification-side runs -/

/-- An ASCII letter is a word character. -/
theorem isWordChar_of_isAsciiLetter {c : Nat} (h : isAsciiLetter c = true) :
    isWordChar c = true := by
  simp [isWordChar, h]

/-- A letter neighbour is a word-character neighbour. -/
theorem optWord_of_optLetter {o : Option Nat}
    (h : optHolds isAsciiLetter o = true) : optHolds isWordChar o = true := by
  cases o with
  | none => simp [optHolds] at h
  | some c => exact isWordChar_of_isAsciiLetter h

/-- dropWhile is drop by the length of takeWhile. -/
theorem dropWhile_eq_drop_len (p : Nat → Bool) :
    ∀ s : PyStr, s.dropWhile p = s.drop (s.takeWhile p).length
  | [] => rfl
  | c :: cs => by
    by_cases h : p c
    · simp [List.dropWhile_cons, List.takeWhile_cons, h,
        dropWhile_eq_drop_len p cs]
    · simp [List.dropWhile_cons, List.takeWhile_cons, h]

/-- The previous-character function after peeling the head. -/
theorem prevAt_cons (c : Nat) (s : PyStr) :
    ∀ i, prevAt (some c) s i = (c :: s)[i]?
  | 0 => (List.getElem?_cons_zero).symm
  | _ + 1 => (List.getElem?_cons_succ).symm

/-- Peeling one character off the specification-side runs: position 0 yields
a token exactly when a boundary-delimited maximal run starts there, and the
positions at 1 and beyond are the runs of the tail seen with the peeled
character as previous character. -/
theorem spec_from_cons (p : Option Nat) (c : Nat) (s : PyStr) :
    spec_word_runs_from p (c :: s) =
      (if isAsciiLetter c && !optHolds isWordChar p &&
          !optHolds isWordChar ((s.dropWhile isAsciiLetter).head?) then
        [c :: s.takeWhile isAsciiLetter]
      else []) ++ spec_word_runs_from (some c) s := by
  simp only [spec_word_runs_from]
  rw [show (c :: s).length = s.length + 1 from rfl, List.range_succ_eq_map,
    List.filterMap_cons, List.filterMap_map]
  have hstep : ((fun i =>
      if maxRunStartAt p (c :: s) i && runBoundaryOk p (c :: s) i then
        some (letterRunAt (c :: s) i) else none) ∘ (· + 1))
      = fun i =>
      if maxRunStartAt (some c) s i && runBoundaryOk (some c) s i then
        some (letterRunAt s i) else none := by
    funext i
    simp only [Function.comp_apply]
    have h2 : letterRunAt (c :: s) (i + 1) = letterRunAt s i := by
      unfold letterRunAt
      rw [List.drop_succ_cons]
    have h1 : maxRunStartAt p (c :: s) (i + 1) = maxRunStartAt (some c) s i := by
      unfold maxRunStartAt
      rw [List.getElem?_cons_succ,
        show prevAt p (c :: s) (i + 1) = (c :: s)[i]? from rfl,
        ← prevAt_cons]
    have h3 : runBoundaryOk p (c :: s) (i + 1) = runBoundaryOk (some c) s i := by
      unfold runBoundaryOk
      rw [h2, show prevAt p (c :: s) (i + 1) = (c :: s)[i]? from rfl,
        ← prevAt_cons,
        show i + 1 + (letterRunAt s i).length
          = i + (letterRunAt s i).length + 1 from by omega,
        List.getElem?_cons_succ]
    rw [h1, h2, h3]
  rw [hstep]
  by_cases hc : isAsciiLetter c = true
  · have htake : (c :: s).takeWhile isAsciiLetter = c :: s.takeWhile isAsciiLetter := by
      simp [List.takeWhile_cons, hc]
    have hrun0 : letterRunAt (c :: s) 0 = c :: s.takeWhile isAsciiLetter := by
      unfold letterRunAt
      rw [List.drop_zero, htake]
    have hafter : (c :: s)[0 + (letterRunAt (c :: s) 0).length]?
        = (s.dropWhile isAsciiLetter).head? := by
      rw [hrun0]
      simp only [List.length_cons, Nat.zero_add]
      rw [List.getElem?_cons_succ, ← List.head?_drop, ← dropWhile_eq_drop_len]
    have hstart0 : maxRunStartAt p (c :: s) 0
        = !optHolds isAsciiLetter p := by
      unfold maxRunStartAt
      rw [List.getElem?_cons_zero, show prevAt p (c :: s) 0 = p from rfl]
      simp [optHolds, hc]
    have hbound0 : runBoundaryOk p (c :: s) 0
        = (!optHolds isWordChar p &&
            !optHolds isWordChar ((s.dropWhile isAsciiLetter).head?)) := by
      unfold runBoundaryOk
      rw [hafter, show prevAt p (c :: s) 0 = p from rfl]
    by_cases hw : optHolds isWordChar p = true
    · simp [hstart0, hbound0, hw, hc]
    · have hnl : optHolds isAsciiLetter p = false := by
        by_contra hcon
        rw [Bool.not_eq_false] at hcon
        exact hw (optWord_of_optLetter hcon)
      by_cases ha : optHolds isWordChar ((s.dropWhile isAsciiLetter).head?) = true
      · simp [hstart0, hbound0, hw, hnl, hc, ha]
      · simp [hstart0, hbound0, hw, hnl, hc, ha, hrun0]
  · have hstart0 : maxRunStartAt p (c :: s) 0 = false := by
      unfold maxRunStartAt
      rw [List.getElem?_cons_zero]
      simp [optHolds, hc]
    simp [hstart0, hc]

/-- The scanner embedded from re.findall computes the specification-side
runs, for every previous-character context. -/
theorem re_findall_eq_spec_from :
    ∀ (s : PyStr) (p : Option Nat),
      re_findall_word (optHolds isWordChar p) s = spec_word_runs_from p s
  | [], p => by
    simp [re_findall_word, spec_word_runs_from]
  | c :: cs, p => by
    rw [spec_from_cons, ← re_findall_eq_spec_from cs (some c)]
    show re_findall_word (optHolds isWordChar p) (c :: cs) =
      _ ++ re_findall_word (isWordChar c) cs
    by_cases h : (isAsciiLetter c && !optHolds isWordChar p &&
        !optHolds isWordChar ((cs.dropWhile isAsciiLetter).head?)) = true
    · rw [show re_findall_word (optHolds isWordChar p) (c :: cs) =
          (c :: cs.takeWhile isAsciiLetter) :: re_findall_word (isWordChar c) cs from by
        simp [re_findall_word, h]]
      rw [if_pos h]
      rfl
    · rw [show re_findall_word (optHolds isWordChar p) (c :: cs) =
          re_findall_word (isWordChar c) cs from by
        simp [re_findall_word, h]]
      rw [if_neg h]
      rfl

/-- C6: on the EN path, tokenize_text returns exactly the maximal runs of
ASCII letters of the lower-cased text that are delimited by word boundaries,
in document order (so digit, punctuation and mixed alphanumeric runs
contribute no tokens), and the empty input yields no tokens. -/
theorem en_tokenize_eq_spec_runs (cut : PyStr → List PyStr) (text : PyStr) :
    tokenize_text cut text .en = spec_word_runs (text.map pyLower) ∧
    tokenize_text cut [] .en = [] := by
  constructor
  · show re_findall_word false (text.map pyLower)
      = spec_word_runs_from none (text.map pyLower)
    exact re_findall_eq_spec_from (text.map pyLower) none
  · rfl

/-! ## Claim C10: tokens are nonempty lowercase letter strings -/

/-- Every token the scanner emits is nonempty and consists of letters drawn
from the scanned string. -/
theorem mem_re_findall :
    ∀ (s : PyStr) (prevW : Bool) (t : PyStr),
      t ∈ re_findall_word prevW s →
      t ≠ [] ∧ ∀ c ∈ t, isAsciiLetter c = true ∧ c ∈ s
  | [], prevW, t => by
    simp [re_findall_word]
  | c :: cs, prevW, t => by
    intro h
    by_cases hcond : (isAsciiLetter c && !prevW &&
        !optHolds isWordChar ((cs.dropWhile isAsciiLetter).head?)) = true
    · rw [show re_findall_word prevW (c :: cs) =
          (c :: cs.takeWhile isAsciiLetter) :: re_findall_word (isWordChar c) cs from by
        simp [re_findall_word, hcond]] at h
      rcases List.mem_cons.mp h with rfl | h'
      · refine ⟨by simp, fun d hd => ?_⟩
        rcases List.mem_cons.mp hd with rfl | hd'
        · have hc : isAsciiLetter d = true := by
            have hcond' := hcond
            simp only [Bool.and_eq_true] at hcond'
            exact hcond'.1.1
          exact ⟨hc, List.mem_cons_self d cs⟩
        · exact ⟨List.mem_takeWhile_imp hd',
            List.mem_cons_of_mem c ((List.takeWhile_sublist _).subset hd')⟩
      · obtain ⟨hne, hall⟩ := mem_re_findall cs (isWordChar c) t h'
        exact ⟨hne, fun d hd =>
          ⟨(hall d hd).1, List.mem_cons_of_mem c (hall d hd).2⟩⟩
    · rw [show re_findall_word prevW (c :: cs) =
          re_findall_word (isWordChar c) cs from by
        simp [re_findall_word, hcond]] at h
      obtain ⟨hne, hall⟩ := mem_re_findall cs (isWordChar c) t h
      exact ⟨hne, fun d hd =>
        ⟨(hall d hd).1, List.mem_cons_of_mem c (hall d hd).2⟩⟩

/-- A character of the lower-cased text that is an ASCII letter is a
lowercase letter. -/
theorem pyLower_letter_bounds (d : Nat)
    (h : isAsciiLetter (pyLower d) = true) :
    97 ≤ pyLower d ∧ pyLower d ≤ 122 := by
  unfold pyLower at h ⊢
  split_ifs at h ⊢ with h1 h2
  · omega
  · omega
  · simp only [isAsciiLetter, Bool.or_eq_true, Bool.and_eq_true,
      decide_eq_true_eq] at h
    omega

/-- C10: every token produced by the EN tokenization path is a nonempty
string of lowercase ASCII letters (codes 97 to 122), for every input. -/
theorem en_tokens_nonempty_lowercase (cut : PyStr → List PyStr)
    (text : PyStr) (t : PyStr) (h : t ∈ tokenize_text cut text .en) :
    t ≠ [] ∧ ∀ c ∈ t, 97 ≤ c ∧ c ≤ 122 := by
  have h' := mem_re_findall (text.map pyLower) false t h
  refine ⟨h'.1, fun c hc => ?_⟩
  obtain ⟨hl, hmem⟩ := h'.2 c hc
  obtain ⟨d, -, rfl⟩ := List.mem_map.mp hmem
  exact pyLower_letter_bounds d hl

/-- C10 (witness): the token "hello" produced from "Hello, World" is
nonempty and its character h (code 104) lies in the lowercase range. -/
theorem en_tokens_nonempty_lowercase_inst :
    str2cp "hello" ≠ [] ∧ (97 ≤ 104 ∧ 104 ≤ 122) := by
  have h : str2cp "hello" ∈ tokenize_text (fun _ => []) (str2cp "Hello, World") .en := by
    decide
  exact ⟨(en_tokens_nonempty_lowercase (fun _ => []) (str2cp "Hello, World")
      (str2cp "hello") h).1,
    (en_tokens_nonempty_lowercase (fun _ => []) (str2cp "Hello, World")
      (str2cp "hello") h).2 104 (by decide)⟩

end GarbageCan
